import Mathlib

/-!
Verification development for the heatmap overlay compositing engine of the
For_Pancreas repository.  The repository contains several variants of a
`HeatmapViewer` component plus an analysis service; the definitions below are
shallow embeddings of those TypeScript functions.

Conventions of the embedding:
* raster pixels carry four channels (R, G, B, A); channel arithmetic is kept
  exact (rationals, or reals where the source computes a square root), with the
  source's explicit `Math.min`/`Math.max` clamps;
* a raster is a total function from pixel coordinates to pixels, together with
  explicit width/height arguments, matching the canvas `ImageData` layout;
* a heat grid is a list of rows, as in the source (`number[][]`);
* a JavaScript out-of-bounds array read yields `undefined`; where the source
  merely compares such a value (`undefined > 0.1` is `false`) we model it as
  `Option.none`, and where the source would then dereference it (raising a
  `TypeError`) we model the call as returning an error value.
-/

/-- A four-channel pixel with exact rational channel values, used for the
variants whose arithmetic stays rational. -/
structure PixelQ where
  r : ℚ
  g : ℚ
  b : ℚ
  a : ℚ
  deriving DecidableEq

/-- A four-channel pixel with real channel values, used for the variants whose
arithmetic involves Euclidean distances (square roots). -/
structure PixelR where
  r : ℝ
  g : ℝ
  b : ℝ
  a : ℝ

/-- A raster with rational pixels: total assignment of a pixel to every
coordinate pair; width and height are passed alongside where needed. -/
abbrev RasterQ := ℕ → ℕ → PixelQ

/-- A raster with real pixels. -/
abbrev RasterR := ℕ → ℕ → PixelR

/-- A heat grid exactly as the source handles it: a list of rows of numbers
(`number[][]`), with no well-formedness enforced by the type. -/
abbrev HeatGrid := List (List ℚ)

/-- Errors observable from the rendering code.  `typeError` is the JavaScript
TypeError raised by reading a property of `undefined`.  `invalidGrid` is the
InvalidGridError named by the design documents; the code never constructs it,
and it is present here only so that statements about it can be written. -/
inductive JsError where
  | typeError
  | invalidGrid
  deriving DecidableEq

/-! ### The pixel-additive-blend variant (src/components/results/HeatmapViewer.tsx) -/

/-- The raster-to-grid coordinate mapping performed inside `getHeatmapValue`
(HeatmapViewer.tsx): `scaledX = Math.floor((x / width) * heatmapWidth)` and
`scaledY = Math.floor((y / height) * heatmapHeight)`. -/
def rasterToGrid (px py rasterW rasterH gridW gridH : ℕ) : ℤ × ℤ :=
  (⌊(px : ℚ) / rasterW * gridW⌋, ⌊(py : ℚ) / rasterH * gridH⌋)

/-- Embedding of `getHeatmapValue` (HeatmapViewer.tsx): reads
`heatmap[0].length` (a TypeError when the grid has no rows), scales the pixel
coordinate, and returns `heatmap[scaledY][scaledX]`.  If row `scaledY` does not
exist the source raises a TypeError; if the row exists but entry `scaledX`
does not, the source yields `undefined`, modeled as `none`. -/
def getHeatmapValue (x y width height : ℕ) (heatmap : HeatGrid) :
    Except JsError (Option ℚ) :=
  match heatmap.head? with
  | none => Except.error JsError.typeError
  | some row0 =>
    match heatmap.get?
        (rasterToGrid x y width height row0.length heatmap.length).2.toNat with
    | none => Except.error JsError.typeError
    | some row =>
      Except.ok (row.get?
        (rasterToGrid x y width height row0.length heatmap.length).1.toNat)

/-- The per-pixel channel update of `drawHeatmap` (HeatmapViewer.tsx lines
87-99): when the sampled heat value exceeds 0.1, red gains `heatValue * 200`
clamped to 255, green loses `heatValue * 100` clamped to 0, blue loses
`heatValue * 150` clamped to 0, and alpha is left unchanged. -/
def applyHeatPixel (p : PixelQ) (v : ℚ) : PixelQ :=
  if 1 / 10 < v then
    ⟨min 255 (p.r + v * 200), max 0 (p.g - v * 100), max 0 (p.b - v * 150), p.a⟩
  else p

/-- The raster produced by the pixel loop of `drawHeatmap` (HeatmapViewer.tsx)
once the loop is known not to raise: every in-bounds pixel is updated from its
own sampled heat value; a sample of `undefined` fails the `> 0.1` test and
leaves the pixel unchanged.  The error branch of the sample cannot occur for
the non-empty grids under which this loop body is reached. -/
def drawHeatmapOk (base : RasterQ) (heatmap : HeatGrid) (width height : ℕ) :
    RasterQ := fun x y =>
  if x < width ∧ y < height then
    match getHeatmapValue x y width height heatmap with
    | Except.ok (some v) => applyHeatPixel (base x y) v
    | Except.ok none => base x y
    | Except.error _ => base x y
  else base x y

/-- Embedding of `drawHeatmap` (HeatmapViewer.tsx): the pixel loop body runs
only when both canvas dimensions are positive; its first sample then reads
`heatmap[0].length`, which raises a TypeError when the grid has no rows.
Otherwise the loop rewrites the raster pixelwise. -/
def drawHeatmap (base : RasterQ) (heatmap : HeatGrid) (width height : ℕ) :
    Except JsError RasterQ :=
  if 0 < width ∧ 0 < height then
    match heatmap.head? with
    | none => Except.error JsError.typeError
    | some _ => Except.ok (drawHeatmapOk base heatmap width height)
  else Except.ok base

/-! ### The radial-gradient-halo variant (part_001) -/

/-- Display-size computation of the part_001 variant (`img.onload`, lines
31-51): `maxWidth = 400`, `maxHeight = 300`; if the width exceeds 400 it is
clamped and the height follows the aspect value; if the resulting height
exceeds 300 it is clamped and the width follows the aspect value.  The
source's `aspectRatio` local is inlined as `origW / origH`. -/
def displaySize (origW origH : ℚ) : ℚ × ℚ :=
  if 400 < origW then
    if 300 < 400 / (origW / origH) then (300 * (origW / origH), 300)
    else (400, 400 / (origW / origH))
  else
    if 300 < origH then (300 * (origW / origH), 300) else (origW, origH)

/-- Horizontal centre of the halo of the part_001 variant:
`pancreaticRegion.x + pancreaticRegion.width / 2` with
`x = Math.floor(width * 0.45)` and `width = Math.floor(width * 0.2)`. -/
def centerXP1 (width : ℕ) : ℚ :=
  (⌊(width : ℚ) * 45 / 100⌋ : ℤ) + ((⌊(width : ℚ) * 2 / 10⌋ : ℤ) : ℚ) / 2

/-- Vertical centre of the halo of the part_001 variant:
`pancreaticRegion.y + pancreaticRegion.height / 2` with
`y = Math.floor(height * 0.35)` and `height = Math.floor(height * 0.15)`. -/
def centerYP1 (height : ℕ) : ℚ :=
  (⌊(height : ℚ) * 35 / 100⌋ : ℤ) + ((⌊(height : ℚ) * 15 / 100⌋ : ℤ) : ℚ) / 2

/-- Opacity of the part_001 radial gradient at offset `t` of the radius:
linear interpolation of the colour stops 0.95 at 0, 0.85 at 0.3, 0.75 at 0.6
and 0 at 1. -/
noncomputable def gradOpacityP1 (t : ℝ) : ℝ :=
  if t ≤ 3 / 10 then 95 / 100 + t / (3 / 10) * (85 / 100 - 95 / 100)
  else if t ≤ 6 / 10 then 85 / 100 + (t - 3 / 10) / (3 / 10) * (75 / 100 - 85 / 100)
  else 75 / 100 + (t - 6 / 10) / (4 / 10) * (0 - 75 / 100)

/-- Source-over compositing of the gradient colour rgba(220, 38, 38, alpha)
onto a pixel, with straight (non-premultiplied) alpha: the idealized model of
the canvas `fill` of the part_001 variant, ignoring antialiasing. -/
noncomputable def overlayPixelP1 (p : PixelR) (alpha : ℝ) : PixelR :=
  ⟨alpha * 220 + (1 - alpha) * p.r,
   alpha * 38 + (1 - alpha) * p.g,
   alpha * 38 + (1 - alpha) * p.b,
   alpha * 255 + (1 - alpha) * p.a⟩

/-- Embedding of `drawHeatmap` of the part_001 variant: a radial gradient of
radius `min(width, height) * 0.1` centred on the fixed anatomical region,
painted over the circle of that radius.  Note that this variant never reads
the heat grid. -/
noncomputable def drawHeatmapP1 (base : RasterR) (width height : ℕ) : RasterR :=
  fun x y =>
    let cx : ℝ := (centerXP1 width : ℚ)
    let cy : ℝ := (centerYP1 height : ℚ)
    let radius : ℝ := (min width height : ℕ) * (1 / 10)
    let d := Real.sqrt (((x : ℝ) - cx) ^ 2 + ((y : ℝ) - cy) ^ 2)
    if d < radius then overlayPixelP1 (base x y) (gradOpacityP1 (d / radius))
    else base x y

/-- The JSX overlay-active indicator of the part_001 variant:
`showHeatmap && probability >= 0.3`. -/
def indicatorP1 (showHeatmap : Bool) (probability : ℚ) : Bool :=
  showHeatmap && decide ((3 : ℚ) / 10 ≤ probability)

/-- One run of the part_001 re-render effect: the canvas is cleared, the
cached decoded base image is redrawn, and the overlay is applied only when
`showHeatmap && probability >= 0.3`.  The previous canvas contents `prev` are
fully overwritten and the heat grid is never read by this variant, so both are
unused by the body. -/
noncomputable def renderP1 (base : RasterR) (width height : ℕ)
    (heatmapData : HeatGrid) (showHeatmap : Bool) (probability : ℚ)
    (prev : RasterR) : RasterR :=
  if showHeatmap = true ∧ (3 : ℚ) / 10 ≤ probability then
    drawHeatmapP1 base width height
  else base

/-! ### The single-hotspot-highlight variant (part_002) -/

/-- The running maximum of the part_002 peak scan. -/
structure PeakPoint where
  x : ℕ
  y : ℕ
  value : ℚ
  deriving DecidableEq

/-- The grid cell read `heatmapData[y][x]`, as an optional value (`none` is a
JavaScript `undefined` read). -/
def vOf (grid : HeatGrid) (c : ℕ × ℕ) : Option ℚ :=
  (grid.get? c.2).bind fun row => row.get? c.1

/-- One iteration of the part_002 peak scan:
`if (heatmapData[y][x] > maxPoint.value) maxPoint = { x, y, value }`.
A cell read that yields `undefined` fails the strict comparison. -/
def peakStep (grid : HeatGrid) (acc : PeakPoint) (c : ℕ × ℕ) : PeakPoint :=
  match vOf grid c with
  | some v => if acc.value < v then ⟨c.1, c.2, v⟩ else acc
  | none => acc

/-- The part_002 peak scan (drawHeatmap lines 63-71): nested loops over
`y < heatmapData.length` and `x < heatmapData[0].length`, starting from the
sentinel `{ x: 0, y: 0, value: 0 }` and keeping the first row-major cell that
strictly exceeds the running maximum.  When the grid has no rows the inner
bound is never evaluated, so `headD` matches the source. -/
def peakScan (grid : HeatGrid) : PeakPoint :=
  (List.range grid.length).foldl
    (fun acc y =>
      (List.range (grid.headD []).length).foldl
        (fun acc x => peakStep grid acc (x, y)) acc)
    ⟨0, 0, 0⟩

/-- The raster-coordinate centre of the part_002 highlight:
`centerX = Math.floor((maxPoint.x / heatmapData[0].length) * width)` and
`centerY = Math.floor((maxPoint.y / heatmapData.length) * height)`.
Caution: for a grid whose first row is empty the source divides 0 by 0,
yielding NaN, and the highlight pass then paints no pixel (`NaN < radius` is
false at every pixel), whereas rational division makes `0 / 0 = 0` here.  The
model is therefore faithful only for grids with a non-empty first row, and
every statement about the highlight below carries that hypothesis. -/
def peakCenterP2 (heatmapData : HeatGrid) (width height : ℕ) : ℤ × ℤ :=
  (⌊((peakScan heatmapData).x : ℚ) / (heatmapData.headD []).length * width⌋,
   ⌊((peakScan heatmapData).y : ℚ) / heatmapData.length * height⌋)

/-- The per-pixel channel shift of the part_002 highlight at intensity `i`:
red gains `i * 255` clamped to 255, green and blue lose `i * 100` clamped to
0, alpha gains `i * 100` clamped to 255. -/
noncomputable def highlightPixelP2 (p : PixelR) (i : ℝ) : PixelR :=
  ⟨min 255 (p.r + i * 255), max 0 (p.g - i * 100), max 0 (p.b - i * 100),
   min 255 (p.a + i * 100)⟩

/-- Embedding of `drawHeatmap` of the part_002 variant: locate the peak cell,
map it to raster coordinates, and paint a distance-attenuated red highlight of
radius `min(width, height) * 0.15` around it, with intensity
`max(0, 1 - distance / radius)`.  On a grid with no rows the source raises a
TypeError at `heatmapData[0].length`, and on a grid whose first row is empty
the centre computation yields NaN and nothing is painted (see `peakCenterP2`);
this model is therefore only used for grids with a non-empty first row. -/
noncomputable def drawHeatmapP2 (base : RasterR) (heatmapData : HeatGrid)
    (width height : ℕ) : RasterR :=
  fun x y =>
    if x < width ∧ y < height then
      if Real.sqrt (((x : ℝ) - ((peakCenterP2 heatmapData width height).1 : ℝ)) ^ 2 +
            ((y : ℝ) - ((peakCenterP2 heatmapData width height).2 : ℝ)) ^ 2) <
          ((min width height : ℕ) : ℝ) * (15 / 100) then
        highlightPixelP2 (base x y)
          (max 0 (1 -
            Real.sqrt (((x : ℝ) - ((peakCenterP2 heatmapData width height).1 : ℝ)) ^ 2 +
                ((y : ℝ) - ((peakCenterP2 heatmapData width height).2 : ℝ)) ^ 2) /
              (((min width height : ℕ) : ℝ) * (15 / 100))))
      else base x y
    else base x y

/-! ### The synthetic grid generator (analysisService.ts, generateMockHeatmap) -/

/-- Value written by the primary hotspot pass of `generateMockHeatmap`: cells
within `radius` of the centre receive `Math.max(0, 1 - distance / radius)`,
all other cells keep their initial 0. -/
noncomputable def hotspotValue (cx cy radius : ℕ) (x y : ℕ) : ℝ :=
  if Real.sqrt (((x : ℝ) - cx) ^ 2 + ((y : ℝ) - cy) ^ 2) < radius then
    max 0 (1 - Real.sqrt (((x : ℝ) - cx) ^ 2 + ((y : ℝ) - cy) ^ 2) / radius)
  else 0

/-- A cell of the grid produced by `generateMockHeatmap`, with the random
draws (hotspot centres, radii, and the 50% coin for the secondary hotspot)
abstracted into parameters: the primary hotspot value, merged with the
secondary hotspot value `Math.max(0, 0.8 - distance / radius2)` by
element-wise maximum when the secondary hotspot is generated. -/
noncomputable def mockHeatmapCell (cx cy radius cx2 cy2 radius2 : ℕ)
    (useSecond : Bool) (x y : ℕ) : ℝ :=
  if useSecond then
    if Real.sqrt (((x : ℝ) - cx2) ^ 2 + ((y : ℝ) - cy2) ^ 2) < radius2 then
      max (hotspotValue cx cy radius x y)
        (max 0 (8 / 10 -
          Real.sqrt (((x : ℝ) - cx2) ^ 2 + ((y : ℝ) - cy2) ^ 2) / radius2))
    else hotspotValue cx cy radius x y
  else hotspotValue cx cy radius x y

/-- Embedding of `generateMockHeatmap` (analysisService.ts lines 177-217):
a 50 × 50 grid of `mockHeatmapCell` values. -/
noncomputable def generateMockHeatmap (cx cy radius cx2 cy2 radius2 : ℕ)
    (useSecond : Bool) : List (List ℝ) :=
  (List.range 50).map fun y =>
    (List.range 50).map fun x =>
      mockHeatmapCell cx cy radius cx2 cy2 radius2 useSecond x y

/-! ### Spec-side peak locator, for comparison with the code's scan -/

/-- Modelled from the spec: the repository code has no `findPeak` taking a
`regionFraction`; this definition follows the specification's words for the
central-60-percent region (rows and columns from 20 percent to 80 percent of
each dimension), returning the cell with the maximum value in that region,
ties broken by first occurrence in row-major order, from the zero sentinel.
It exists only to compare the specified behaviour with the scan the code
performs. -/
def findPeakSpecCentral (grid : HeatGrid) : PeakPoint :=
  let gh := grid.length
  let gw := (grid.headD []).length
  let y0 := gh * 2 / 10
  let x0 := gw * 2 / 10
  let ys := (List.range (gh * 8 / 10 - y0)).map fun i => y0 + i
  let xs := (List.range (gw * 8 / 10 - x0)).map fun i => x0 + i
  ys.foldl (fun acc y => xs.foldl (fun acc x => peakStep grid acc (x, y)) acc)
    ⟨0, 0, 0⟩

/-! ### Row-major order and cell enumeration, used to reason about the scan -/

/-- Strict row-major order on grid cells `(x, y)`: earlier row, or same row
and earlier column. -/
def rmLt (c d : ℕ × ℕ) : Prop := c.2 < d.2 ∨ (c.2 = d.2 ∧ c.1 < d.1)

/-- All cells `(x, y)` with `x < gw`, `y < gh`, in row-major order. -/
def gridCells (gh gw : ℕ) : List (ℕ × ℕ) :=
  ((List.range gh).map fun y => (List.range gw).map fun x => (x, y)).flatten

/-! ### Concrete inputs used by witnesses and counterexamples -/

/-- A constant rational-pixel base raster. -/
def base0Q : RasterQ := fun _ _ => ⟨0, 200, 200, 50⟩

/-- A constant real-pixel base raster. -/
noncomputable def base0R : RasterR := fun _ _ => ⟨10, 20, 30, 255⟩

/-- A 5 × 5 grid whose only non-zero cell is a 1.0 at column 3, row 2 —
inside the central 60 percent of each dimension. -/
def grid5 : HeatGrid :=
  [[0, 0, 0, 0, 0], [0, 0, 0, 0, 0], [0, 0, 0, 1, 0], [0, 0, 0, 0, 0],
   [0, 0, 0, 0, 0]]

/-- A 5 × 5 grid whose only non-zero cell is a 1.0 at the top-left corner —
outside the central 60 percent of each dimension. -/
def gridCorner : HeatGrid :=
  [[1, 0, 0, 0, 0], [0, 0, 0, 0, 0], [0, 0, 0, 0, 0], [0, 0, 0, 0, 0],
   [0, 0, 0, 0, 0]]

/-- A non-empty grid all of whose values are (non-positive) zeros. -/
def gridNeg : HeatGrid := [[0, 0], [0, 0]]

/-! ### General helper lemmas -/

/-- A fold whose step fixes the accumulator returns the accumulator. -/
lemma foldlFixedPoint {α β : Type} (f : α → β → α) (a : α) (l : List β)
    (h : ∀ x ∈ l, f a x = a) : l.foldl f a = a := by
  induction l with
  | nil => rfl
  | cons b t ih =>
    rw [List.foldl_cons, h b (List.mem_cons_self b t)]
    exact ih fun x hx => h x (List.mem_cons_of_mem _ hx)

/-- For `a < b` and `0 < n`, the scaled floor `⌊a / b * n⌋` lies in `[0, n)`. -/
lemma floorScaleBounds (a b n : ℕ) (hab : a < b) (hn : 0 < n) :
    0 ≤ ⌊(a : ℚ) / b * n⌋ ∧ ⌊(a : ℚ) / b * n⌋ < n := by
  have hb : (0 : ℚ) < b := by
    have : 0 < b := lt_of_le_of_lt (Nat.zero_le a) hab
    exact_mod_cast this
  constructor
  · rw [Int.floor_nonneg]
    positivity
  · rw [Int.floor_lt]
    push_cast
    have h1 : (a : ℚ) / b < 1 := (div_lt_one hb).2 (by exact_mod_cast hab)
    have h2 : (0 : ℚ) < n := by exact_mod_cast hn
    calc (a : ℚ) / b * n < 1 * n := by exact mul_lt_mul_of_pos_right h1 h2
      _ = n := one_mul _

lemma rmLt_irrefl (c : ℕ × ℕ) : ¬rmLt c c := by
  unfold rmLt
  omega

lemma rmLt_asymm {c d : ℕ × ℕ} (h : rmLt c d) : ¬rmLt d c := by
  unfold rmLt at *
  omega

/-- The row-major cell enumeration is strictly sorted for `rmLt`. -/
lemma pairwise_gridCells (gh gw : ℕ) : (gridCells gh gw).Pairwise rmLt := by
  unfold gridCells
  rw [List.pairwise_flatten]
  constructor
  · intro l hl
    rw [List.mem_map] at hl
    obtain ⟨y, _, rfl⟩ := hl
    rw [List.pairwise_map]
    refine List.Pairwise.imp ?_ (List.pairwise_lt_range gw)
    intro a b hab
    exact Or.inr ⟨rfl, hab⟩
  · rw [List.pairwise_map]
    refine List.Pairwise.imp ?_ (List.pairwise_lt_range gh)
    intro y1 y2 h12 c1 h1 c2 h2
    rw [List.mem_map] at h1 h2
    obtain ⟨x1, _, rfl⟩ := h1
    obtain ⟨x2, _, rfl⟩ := h2
    exact Or.inl h12

/-- Every in-bounds cell occurs in the row-major enumeration. -/
lemma mem_gridCells {gh gw : ℕ} {c : ℕ × ℕ} (h1 : c.1 < gw) (h2 : c.2 < gh) :
    c ∈ gridCells gh gw := by
  unfold gridCells
  rw [List.mem_flatten]
  refine ⟨(List.range gw).map fun x => (x, c.2), ?_, ?_⟩
  · rw [List.mem_map]
    exact ⟨c.2, List.mem_range.2 h2, rfl⟩
  · rw [List.mem_map]
    exact ⟨c.1, List.mem_range.2 h1, rfl⟩

/-- The nested loops of the part_002 peak scan traverse exactly the row-major
cell enumeration. -/
lemma peakScan_eq_foldl (grid : HeatGrid) :
    peakScan grid =
      (gridCells grid.length (grid.headD []).length).foldl (peakStep grid)
        ⟨0, 0, 0⟩ := by
  unfold peakScan gridCells
  rw [List.foldl_flatten, List.foldl_map]
  congr 1
  funext acc y
  rw [List.foldl_map]

/-- Invariant of the part_002 peak-scan fold over a row-major-sorted cell
list: the accumulator value never decreases, every visited cell value is
bounded by the final value, and the result is either the unchanged
accumulator or the first row-major cell strictly exceeding everything seen
before it. -/
lemma peakFoldSpec (grid : HeatGrid) :
    ∀ (l : List (ℕ × ℕ)) (acc : PeakPoint),
      l.Pairwise rmLt →
      (acc = ⟨0, 0, 0⟩ ∨
        (vOf grid (acc.x, acc.y) = some acc.value ∧
          ∀ c ∈ l, rmLt (acc.x, acc.y) c)) →
      acc.value ≤ (l.foldl (peakStep grid) acc).value ∧
      (∀ c ∈ l, ∀ v, vOf grid c = some v →
        v ≤ (l.foldl (peakStep grid) acc).value) ∧
      (l.foldl (peakStep grid) acc = acc ∨
        (vOf grid ((l.foldl (peakStep grid) acc).x,
            (l.foldl (peakStep grid) acc).y) =
          some (l.foldl (peakStep grid) acc).value ∧
         acc.value < (l.foldl (peakStep grid) acc).value ∧
         ∀ c ∈ l, rmLt c ((l.foldl (peakStep grid) acc).x,
             (l.foldl (peakStep grid) acc).y) →
           ∀ v, vOf grid c = some v →
             v < (l.foldl (peakStep grid) acc).value)) := by
  intro l
  induction l with
  | nil =>
    intro acc _ _
    exact ⟨le_refl _, by simp, Or.inl rfl⟩
  | cons c t ih =>
    intro acc hsort hacc
    rw [List.pairwise_cons] at hsort
    obtain ⟨hrel, hsort'⟩ := hsort
    cases hveq : vOf grid c with
    | none =>
      have hstep : peakStep grid acc c = acc := by
        unfold peakStep
        rw [hveq]
      have hacc' : acc = ⟨0, 0, 0⟩ ∨
          (vOf grid (acc.x, acc.y) = some acc.value ∧
            ∀ c' ∈ t, rmLt (acc.x, acc.y) c') := by
        rcases hacc with h | ⟨h1, h2⟩
        · exact Or.inl h
        · exact Or.inr ⟨h1, fun c' hc' => h2 c' (List.mem_cons_of_mem _ hc')⟩
      obtain ⟨g1, g2, g3⟩ := ih acc hsort' hacc'
      rw [List.foldl_cons, hstep]
      refine ⟨g1, ?_, ?_⟩
      · intro c' hc' v hv
        rcases List.mem_cons.1 hc' with rfl | hc'
        · rw [hveq] at hv
          cases hv
        · exact g2 c' hc' v hv
      · rcases g3 with h | ⟨h1, h2, h3⟩
        · exact Or.inl h
        · refine Or.inr ⟨h1, h2, ?_⟩
          intro c' hc' hrm v hv
          rcases List.mem_cons.1 hc' with rfl | hc'
          · rw [hveq] at hv
            cases hv
          · exact h3 c' hc' hrm v hv
    | some v =>
      by_cases hlt : acc.value < v
      · have hstep : peakStep grid acc c = ⟨c.1, c.2, v⟩ := by
          simp [peakStep, hveq, hlt]
        have hacc' : (⟨c.1, c.2, v⟩ : PeakPoint) = ⟨0, 0, 0⟩ ∨
            (vOf grid ((⟨c.1, c.2, v⟩ : PeakPoint).x,
                (⟨c.1, c.2, v⟩ : PeakPoint).y) =
              some (⟨c.1, c.2, v⟩ : PeakPoint).value ∧
             ∀ c' ∈ t, rmLt ((⟨c.1, c.2, v⟩ : PeakPoint).x,
               (⟨c.1, c.2, v⟩ : PeakPoint).y) c') := by
          refine Or.inr ⟨?_, ?_⟩
          · simpa using hveq
          · intro c' hc'
            simpa using hrel c' hc'
        obtain ⟨g1, g2, g3⟩ := ih ⟨c.1, c.2, v⟩ hsort' hacc'
        rw [List.foldl_cons, hstep]
        refine ⟨le_trans (le_of_lt hlt) g1, ?_, ?_⟩
        · intro c' hc' v' hv'
          rcases List.mem_cons.1 hc' with rfl | hc'
          · rw [hveq] at hv'
            injection hv' with hv2
            exact hv2 ▸ g1
          · exact g2 c' hc' v' hv'
        · rcases g3 with heq | ⟨h1, h2, h3⟩
          · rw [heq]
            refine Or.inr ⟨by simpa using hveq, hlt, ?_⟩
            intro c' hc' hrm v' hv'
            rcases List.mem_cons.1 hc' with rfl | hc'
            · exact absurd hrm (by simpa using rmLt_irrefl c')
            · exact absurd hrm (by simpa using rmLt_asymm (hrel c' hc'))
          · refine Or.inr ⟨h1, lt_trans hlt h2, ?_⟩
            intro c' hc' hrm v' hv'
            rcases List.mem_cons.1 hc' with rfl | hc'
            · rw [hveq] at hv'
              injection hv' with hv2
              exact hv2 ▸ h2
            · exact h3 c' hc' hrm v' hv'
      · have hstep : peakStep grid acc c = acc := by
          simp [peakStep, hveq, hlt]
        have hacc' : acc = ⟨0, 0, 0⟩ ∨
            (vOf grid (acc.x, acc.y) = some acc.value ∧
              ∀ c' ∈ t, rmLt (acc.x, acc.y) c') := by
          rcases hacc with h | ⟨h1, h2⟩
          · exact Or.inl h
          · exact Or.inr ⟨h1, fun c' hc' => h2 c' (List.mem_cons_of_mem _ hc')⟩
        obtain ⟨g1, g2, g3⟩ := ih acc hsort' hacc'
        rw [List.foldl_cons, hstep]
        refine ⟨g1, ?_, ?_⟩
        · intro c' hc' v' hv'
          rcases List.mem_cons.1 hc' with rfl | hc'
          · rw [hveq] at hv'
            injection hv' with hv2
            exact hv2 ▸ le_trans (not_lt.1 hlt) g1
          · exact g2 c' hc' v' hv'
        · rcases g3 with heq | ⟨h1, h2, h3⟩
          · exact Or.inl heq
          · refine Or.inr ⟨h1, h2, ?_⟩
            intro c' hc' hrm v' hv'
            rcases List.mem_cons.1 hc' with rfl | hc'
            · rw [hveq] at hv'
              injection hv' with hv2
              exact hv2 ▸ lt_of_le_of_lt (not_lt.1 hlt) h2
            · exact h3 c' hc' hrm v' hv'

/-! ### Source-level lemmas -/

/-- On the grid whose only row is empty, every pixel of the loop samples
`undefined`, which fails the `> 0.1` test, so the raster is unchanged. -/
lemma drawHeatmap_emptyRowGrid (base : RasterQ) (w h : ℕ) :
    drawHeatmap base [[]] w h = Except.ok base := by
  unfold drawHeatmap
  split_ifs with hwh
  · show Except.ok (drawHeatmapOk base [[]] w h) = Except.ok base
    congr 1
    funext x y
    unfold drawHeatmapOk
    split_ifs with hxy
    · have hh : (0 : ℚ) < h := by
        have : 0 < h := lt_of_le_of_lt (Nat.zero_le y) hxy.2
        exact_mod_cast this
      have hfy : ⌊(y : ℚ) / h⌋ = 0 := by
        rw [Int.floor_eq_zero_iff]
        exact ⟨by positivity, (div_lt_one hh).2 (by exact_mod_cast hxy.2)⟩
      have hval : getHeatmapValue x y w h [[]] = Except.ok none := by
        simp [getHeatmapValue, rasterToGrid, hfy]
      rw [hval]
    · rfl
  · rfl

lemma hotspotValue_nonneg (cx cy radius x y : ℕ) :
    0 ≤ hotspotValue cx cy radius x y := by
  unfold hotspotValue
  split_ifs
  · exact le_max_left 0 _
  · exact le_refl 0

lemma hotspotValue_le_one (cx cy radius x y : ℕ) :
    hotspotValue cx cy radius x y ≤ 1 := by
  unfold hotspotValue
  split_ifs
  · refine max_le (by norm_num) ?_
    have h1 : 0 ≤ Real.sqrt (((x : ℝ) - cx) ^ 2 + ((y : ℝ) - cy) ^ 2) / radius :=
      div_nonneg (Real.sqrt_nonneg _) (Nat.cast_nonneg radius)
    linarith
  · norm_num

lemma mockHeatmapCell_ge_hotspot (cx cy radius cx2 cy2 radius2 : ℕ)
    (useSecond : Bool) (x y : ℕ) :
    hotspotValue cx cy radius x y ≤
      mockHeatmapCell cx cy radius cx2 cy2 radius2 useSecond x y := by
  unfold mockHeatmapCell
  split_ifs
  · exact le_max_left _ _
  · exact le_refl _
  · exact le_refl _

lemma mockHeatmapCell_nonneg (cx cy radius cx2 cy2 radius2 : ℕ)
    (useSecond : Bool) (x y : ℕ) :
    0 ≤ mockHeatmapCell cx cy radius cx2 cy2 radius2 useSecond x y :=
  le_trans (hotspotValue_nonneg cx cy radius x y)
    (mockHeatmapCell_ge_hotspot cx cy radius cx2 cy2 radius2 useSecond x y)

lemma mockHeatmapCell_le_one (cx cy radius cx2 cy2 radius2 : ℕ)
    (useSecond : Bool) (x y : ℕ) :
    mockHeatmapCell cx cy radius cx2 cy2 radius2 useSecond x y ≤ 1 := by
  unfold mockHeatmapCell
  split_ifs
  · refine max_le (hotspotValue_le_one _ _ _ _ _) (max_le (by norm_num) ?_)
    have h1 : 0 ≤ Real.sqrt (((x : ℝ) - cx2) ^ 2 + ((y : ℝ) - cy2) ^ 2) / radius2 :=
      div_nonneg (Real.sqrt_nonneg _) (Nat.cast_nonneg radius2)
    linarith
  · exact hotspotValue_le_one _ _ _ _ _
  · exact hotspotValue_le_one _ _ _ _ _

/-! ### Claim theorems -/

/-- Claim C1: in the part_001 variant the overlay is composited, and the
overlay-active indicator shown, exactly when the overlay is visible and the
probability is at least 0.3; at probability 0.29 the raster equals the clean
base image and the indicator is absent, and at probability 0.31 with
visibility on the indicator is present. -/
theorem claim_C1_threshold_gating (base : RasterR) (w h : ℕ) (hd : HeatGrid)
    (v : Bool) :
    renderP1 base w h hd v (29 / 100) base = base ∧
    indicatorP1 v (29 / 100) = false ∧
    indicatorP1 true (31 / 100) = true ∧
    (∀ p : ℚ, indicatorP1 v p = true ↔ v = true ∧ (3 : ℚ) / 10 ≤ p) ∧
    (∀ p : ℚ, v = true ∧ (3 : ℚ) / 10 ≤ p →
      renderP1 base w h hd v p base = drawHeatmapP1 base w h) ∧
    (∀ p : ℚ, ¬(v = true ∧ (3 : ℚ) / 10 ≤ p) →
      renderP1 base w h hd v p base = base) := by
  refine ⟨?_, ?_, ?_, ?_, ?_, ?_⟩
  · unfold renderP1
    rw [if_neg]
    rintro ⟨-, hc⟩
    norm_num at hc
  · cases v <;> norm_num [indicatorP1]
  · norm_num [indicatorP1]
  · intro p
    simp [indicatorP1, Bool.and_eq_true, decide_eq_true_iff]
  · intro p hp
    unfold renderP1
    rw [if_pos hp]
  · intro p hp
    unfold renderP1
    rw [if_neg hp]

/-- Witness for C1 at visibility on and probability 0.31. -/
theorem claim_C1_witness :
    renderP1 base0R 4 3 [] true (31 / 100) base0R = drawHeatmapP1 base0R 4 3 ∧
    indicatorP1 true (31 / 100) = true :=
  ⟨(claim_C1_threshold_gating base0R 4 3 [] true).2.2.2.2.1 (31 / 100)
      ⟨rfl, by norm_num⟩,
   (claim_C1_threshold_gating base0R 4 3 [] true).2.2.1⟩

/-- Claim C2: every re-render first restores the clean decoded base image and
only then conditionally reapplies the overlay; in particular the result never
depends on the previous canvas contents, and the toggle sequence
off-on-off ends pixel-identical to the base image. -/
theorem claim_C2_toggle_restores_base (base : RasterR) (w h : ℕ)
    (hd : HeatGrid) (p : ℚ) (c0 : RasterR) :
    (∀ (v : Bool) (prev : RasterR),
      renderP1 base w h hd v p prev = renderP1 base w h hd v p base) ∧
    renderP1 base w h hd false p
      (renderP1 base w h hd true p (renderP1 base w h hd false p c0)) = base := by
  refine ⟨fun v prev => rfl, ?_⟩
  simp [renderP1]

/-- Claim C3 counterexample: at heat value 1 the blended pixel produced by the
code is (200, 100, 50, 50), which differs from the channel shifts stated by
the claim (red + 255, green and blue each - 100, alpha + 100, all clamped). -/
theorem claim_C3_counterexample :
    drawHeatmapOk base0Q [[1]] 1 1 0 0 = ⟨200, 100, 50, 50⟩ ∧
    (⟨200, 100, 50, 50⟩ : PixelQ) ≠
      ⟨min 255 ((base0Q 0 0).r + 1 * 255), max 0 ((base0Q 0 0).g - 1 * 100),
       max 0 ((base0Q 0 0).b - 1 * 100), min 255 ((base0Q 0 0).a + 1 * 100)⟩ := by
  have hs : getHeatmapValue 0 0 1 1 [[1]] = Except.ok (some 1) := by
    simp [getHeatmapValue, rasterToGrid]
  constructor
  · norm_num [drawHeatmapOk, hs, applyHeatPixel, base0Q]
  · norm_num [base0Q, PixelQ.mk.injEq]

/-- Claim C3 amended: for every in-bounds pixel whose sampled grid value
exceeds 0.1, red gains value times 200 clamped to 255, green loses value
times 100 clamped to 0, blue loses value times 150 clamped to 0, and alpha is
unchanged; a sampled value of at most 0.1 leaves all four channels
unchanged. -/
theorem claim_C3_amended (base : RasterQ) (heatmap : HeatGrid) (w h x y : ℕ)
    (v : ℚ) (hx : x < w) (hy : y < h)
    (hs : getHeatmapValue x y w h heatmap = Except.ok (some v)) :
    (1 / 10 < v → drawHeatmapOk base heatmap w h x y =
      ⟨min 255 ((base x y).r + v * 200), max 0 ((base x y).g - v * 100),
       max 0 ((base x y).b - v * 150), (base x y).a⟩) ∧
    (v ≤ 1 / 10 → drawHeatmapOk base heatmap w h x y = base x y) := by
  unfold drawHeatmapOk
  rw [if_pos ⟨hx, hy⟩, hs]
  unfold applyHeatPixel
  constructor
  · intro hv
    exact if_pos hv
  · intro hv
    exact if_neg (not_lt.2 hv)

/-- Witness for the amended C3 at heat value 1 on a 1-pixel raster. -/
theorem claim_C3_amended_witness :
    drawHeatmapOk base0Q [[1]] 1 1 0 0 =
      ⟨min 255 ((base0Q 0 0).r + 1 * 200), max 0 ((base0Q 0 0).g - 1 * 100),
       max 0 ((base0Q 0 0).b - 1 * 150), (base0Q 0 0).a⟩ :=
  (claim_C3_amended base0Q [[1]] 1 1 0 0 1 (by decide) (by decide)
    (by simp [getHeatmapValue, rasterToGrid])).1 (by norm_num)

/-- Claim C5: the computed display size fits in 400 by 300, equals the
original size scaled by min(1, 400/width, 300/height), and preserves the
aspect value exactly. -/
theorem claim_C5_display_size (w h : ℚ) (hw : 0 < w) (hh : 0 < h) :
    displaySize w h =
      (w * min 1 (min (400 / w) (300 / h)),
       h * min 1 (min (400 / w) (300 / h))) ∧
    (displaySize w h).1 ≤ 400 ∧ (displaySize w h).2 ≤ 300 ∧
    (displaySize w h).1 / (displaySize w h).2 = w / h := by
  have hwne : w ≠ 0 := ne_of_gt hw
  have hhne : h ≠ 0 := ne_of_gt hh
  unfold displaySize
  split_ifs with h1 h2 h3
  · -- width clamped, then height clamped
    have key : 300 * w < 400 * h := by
      rw [div_div_eq_mul_div, lt_div_iff hw] at h2
      linarith
    have hgt : 300 < h := by linarith
    have hs : min 1 (min (400 / w) (300 / h)) = 300 / h := by
      have ha : 300 / h ≤ 400 / w := by
        rw [div_le_div_iff hh hw]
        linarith
      have hb : 300 / h ≤ 1 := by
        rw [div_le_one hh]
        linarith
      rw [min_eq_right ha, min_eq_right hb]
    refine ⟨?_, ?_, ?_, ?_⟩
    · rw [hs, Prod.mk.injEq]
      constructor
      · field_simp
        ring
      · field_simp
    · show 300 * (w / h) ≤ 400
      rw [mul_div_assoc']
      rw [div_le_iff hh]
      linarith
    · exact le_refl 300
    · show 300 * (w / h) / 300 = w / h
      field_simp
      ring
  · -- width clamped, height fits
    have key : 400 * h ≤ 300 * w := by
      have h2' := not_lt.1 h2
      rw [div_div_eq_mul_div, div_le_iff hw] at h2'
      linarith
    have hs : min 1 (min (400 / w) (300 / h)) = 400 / w := by
      have ha : 400 / w ≤ 300 / h := by
        rw [div_le_div_iff hw hh]
        linarith
      have hb : 400 / w ≤ 1 := by
        rw [div_le_one hw]
        linarith
      rw [min_eq_left ha, min_eq_right hb]
    refine ⟨?_, ?_, ?_, ?_⟩
    · rw [hs, Prod.mk.injEq]
      constructor
      · field_simp
      · rw [div_div_eq_mul_div]
        field_simp
        ring
    · exact le_refl 400
    · exact not_lt.1 h2
    · show 400 / (400 / (w / h)) = w / h
      rw [div_div_eq_mul_div]
      field_simp
      ring
  · -- width fits, height clamped
    have key : 300 * w ≤ 400 * h := by
      have hw400 := not_lt.1 h1
      linarith
    have hs : min 1 (min (400 / w) (300 / h)) = 300 / h := by
      have ha : 300 / h ≤ 400 / w := by
        rw [div_le_div_iff hh hw]
        linarith
      have hb : 300 / h ≤ 1 := by
        rw [div_le_one hh]
        linarith
      rw [min_eq_right ha, min_eq_right hb]
    refine ⟨?_, ?_, ?_, ?_⟩
    · rw [hs, Prod.mk.injEq]
      constructor
      · field_simp
        ring
      · field_simp
    · show 300 * (w / h) ≤ 400
      rw [mul_div_assoc']
      rw [div_le_iff hh]
      linarith
    · exact le_refl 300
    · show 300 * (w / h) / 300 = w / h
      field_simp
      ring
  · -- neither dimension clamped
    have hs : min 1 (min (400 / w) (300 / h)) = 1 := by
      rw [min_eq_left]
      refine le_min ?_ ?_
      · rw [le_div_iff hw]
        have := not_lt.1 h1
        linarith
      · rw [le_div_iff hh]
        have := not_lt.1 h3
        linarith
    refine ⟨?_, ?_, ?_, ?_⟩
    · rw [hs, Prod.mk.injEq]
      constructor
      · rw [mul_one]
      · rw [mul_one]
    · exact not_lt.1 h1
    · exact not_lt.1 h3
    · rfl

/-- Witness for C5 on an 800 by 600 image. -/
theorem claim_C5_witness :
    displaySize 800 600 =
      (800 * min 1 (min (400 / 800) (300 / 600)),
       600 * min 1 (min (400 / 800) (300 / 600))) ∧
    (displaySize 800 600).1 ≤ 400 ∧ (displaySize 800 600).2 ≤ 300 ∧
    (displaySize 800 600).1 / (displaySize 800 600).2 = 800 / 600 :=
  claim_C5_display_size 800 600 (by norm_num) (by norm_num)

/-- Claim C6: for a valid (non-empty, rectangular) grid and an in-bounds
pixel coordinate, the raster-to-grid mapping lands inside
[0, gridWidth) by [0, gridHeight), and the subsequent grid cell access
succeeds. -/
theorem claim_C6_sampler_inbounds (heatmap : HeatGrid)
    (px py rasterW rasterH : ℕ) (hW : 0 < (heatmap.headD []).length)
    (hrect : ∀ row ∈ heatmap, row.length = (heatmap.headD []).length)
    (hx : px < rasterW) (hy : py < rasterH) :
    0 ≤ (rasterToGrid px py rasterW rasterH (heatmap.headD []).length
      heatmap.length).1 ∧
    (rasterToGrid px py rasterW rasterH (heatmap.headD []).length
      heatmap.length).1 < (heatmap.headD []).length ∧
    0 ≤ (rasterToGrid px py rasterW rasterH (heatmap.headD []).length
      heatmap.length).2 ∧
    (rasterToGrid px py rasterW rasterH (heatmap.headD []).length
      heatmap.length).2 < heatmap.length ∧
    ∃ v, getHeatmapValue px py rasterW rasterH heatmap =
      Except.ok (some v) := by
  cases heatmap with
  | nil => simp at hW
  | cons row0 rows =>
    simp only [List.headD_cons] at hW hrect ⊢
    obtain ⟨hx0, hx1⟩ := floorScaleBounds px rasterW row0.length hx hW
    obtain ⟨hy0, hy1⟩ := floorScaleBounds py rasterH (row0 :: rows).length hy
      (Nat.succ_pos rows.length)
    have hyNat : (rasterToGrid px py rasterW rasterH row0.length
        (row0 :: rows).length).2.toNat < (row0 :: rows).length := by
      simp only [rasterToGrid]
      omega
    obtain ⟨row, hrow⟩ : ∃ row, (row0 :: rows).get?
        (rasterToGrid px py rasterW rasterH row0.length
          (row0 :: rows).length).2.toNat = some row :=
      ⟨_, List.get?_eq_get hyNat⟩
    have hrl : row.length = row0.length := hrect row (List.get?_mem hrow)
    have hxNat : (rasterToGrid px py rasterW rasterH row0.length
        (row0 :: rows).length).1.toNat < row.length := by
      rw [hrl]
      simp only [rasterToGrid]
      omega
    obtain ⟨v, hv⟩ : ∃ v, row.get?
        (rasterToGrid px py rasterW rasterH row0.length
          (row0 :: rows).length).1.toNat = some v :=
      ⟨_, List.get?_eq_get hxNat⟩
    refine ⟨?_, ?_, ?_, ?_, ?_⟩
    · simpa [rasterToGrid] using hx0
    · simpa [rasterToGrid] using hx1
    · simpa [rasterToGrid] using hy0
    · simpa [rasterToGrid] using hy1
    · refine ⟨v, ?_⟩
      unfold getHeatmapValue
      simp only [List.head?_cons]
      rw [hrow]
      show Except.ok (row.get? (rasterToGrid px py rasterW rasterH row0.length
        (row0 :: rows).length).1.toNat) = Except.ok (some v)
      rw [hv]

/-- Witness for C6 on a 2 by 2 grid under a 4 by 4 raster. -/
theorem claim_C6_witness :
    ∃ v, getHeatmapValue 1 1 4 4 [[5, 7], [9, 11]] = Except.ok (some v) :=
  (claim_C6_sampler_inbounds [[5, 7], [9, 11]] 1 1 4 4 (by decide) (by decide)
    (by decide) (by decide)).2.2.2.2

/-- Claim C7 counterexample: on the malformed grid whose single row is empty,
the engine returns the unchanged raster and no error at all — it does not
fail fast with InvalidGridError before sampling. -/
theorem claim_C7_counterexample :
    drawHeatmap base0Q [[]] 2 2 = Except.ok base0Q ∧
    drawHeatmap base0Q [[]] 2 2 ≠ Except.error JsError.invalidGrid := by
  refine ⟨drawHeatmap_emptyRowGrid base0Q 2 2, ?_⟩
  rw [drawHeatmap_emptyRowGrid base0Q 2 2]
  intro hcon
  exact Except.noConfusion hcon

/-- Claim C7 amended: the engine performs no grid validation.  A zero-row
grid makes the first sample raise an uncontrolled TypeError (whenever the
pixel loop runs at all) rather than an InvalidGridError; a grid whose only
row is empty is accepted, every sample yields no value, and every pixel is
left unchanged; and no call ever produces InvalidGridError. -/
theorem claim_C7_amended :
    (∀ (base : RasterQ) (w h : ℕ), 0 < w → 0 < h →
      drawHeatmap base [] w h = Except.error JsError.typeError) ∧
    (∀ (base : RasterQ) (w h : ℕ),
      drawHeatmap base [[]] w h = Except.ok base) ∧
    (∀ (base : RasterQ) (grid : HeatGrid) (w h : ℕ) (e : JsError),
      drawHeatmap base grid w h = Except.error e →
        e = JsError.typeError) := by
  refine ⟨?_, fun base w h => drawHeatmap_emptyRowGrid base w h, ?_⟩
  · intro base w h hw hh
    unfold drawHeatmap
    rw [if_pos ⟨hw, hh⟩]
    rfl
  · intro base grid w h e he
    unfold drawHeatmap at he
    split_ifs at he
    · cases grid with
      | nil =>
        simp only [List.head?_nil] at he
        injection he with h2
        exact h2.symm
      | cons r t =>
        simp only [List.head?_cons] at he
        exact Except.noConfusion he

/-- Witness for the amended C7: a zero-row grid on a 3 by 3 raster raises the
TypeError. -/
theorem claim_C7_amended_witness :
    drawHeatmap base0Q [] 3 3 = Except.error JsError.typeError :=
  claim_C7_amended.1 base0Q 3 3 (by decide) (by decide)

/-- Claim C9: the part_001 rendering is independent of the heat grid — any
two heat grids (and any previous canvas contents) yield identical pixels for
the same base image, visibility and probability — and the halo centre is the
fixed anatomical region: between 45 and 65 percent of the width and between
35 and 50 percent of the height. -/
theorem claim_C9_halo_independent (base : RasterR) (w h : ℕ)
    (hd1 hd2 : HeatGrid) (v : Bool) (p : ℚ) (prev1 prev2 : RasterR) :
    renderP1 base w h hd1 v p prev1 = renderP1 base w h hd2 v p prev2 ∧
    (15 ≤ w → (45 : ℚ) / 100 * w ≤ centerXP1 w ∧
      centerXP1 w ≤ 65 / 100 * w) ∧
    (20 ≤ h → (35 : ℚ) / 100 * h ≤ centerYP1 h ∧
      centerYP1 h ≤ 50 / 100 * h) := by
  refine ⟨rfl, ?_, ?_⟩
  · intro hw
    have hwq : (15 : ℚ) ≤ (w : ℚ) := by exact_mod_cast hw
    have h1a := Int.sub_one_lt_floor ((w : ℚ) * 45 / 100)
    have h1b := Int.floor_le ((w : ℚ) * 45 / 100)
    have h2a := Int.sub_one_lt_floor ((w : ℚ) * 2 / 10)
    have h2b := Int.floor_le ((w : ℚ) * 2 / 10)
    unfold centerXP1
    constructor
    · linarith
    · linarith
  · intro hh
    have hhq : (20 : ℚ) ≤ (h : ℚ) := by exact_mod_cast hh
    have h1a := Int.sub_one_lt_floor ((h : ℚ) * 35 / 100)
    have h1b := Int.floor_le ((h : ℚ) * 35 / 100)
    have h2a := Int.sub_one_lt_floor ((h : ℚ) * 15 / 100)
    have h2b := Int.floor_le ((h : ℚ) * 15 / 100)
    unfold centerYP1
    constructor
    · linarith
    · linarith

/-- Witness for C9 on a 20 by 20 raster with two different grids. -/
theorem claim_C9_witness :
    renderP1 base0R 20 20 [] true (1 / 2) base0R =
      renderP1 base0R 20 20 [[1]] true (1 / 2) base0R ∧
    (45 : ℚ) / 100 * ((20 : ℕ) : ℚ) ≤ centerXP1 20 ∧
    (35 : ℚ) / 100 * ((20 : ℕ) : ℚ) ≤ centerYP1 20 :=
  ⟨(claim_C9_halo_independent base0R 20 20 [] [[1]] true (1 / 2) base0R
      base0R).1,
   ((claim_C9_halo_independent base0R 20 20 [] [[1]] true (1 / 2) base0R
      base0R).2.1 (by decide)).1,
   ((claim_C9_halo_independent base0R 20 20 [] [[1]] true (1 / 2) base0R
      base0R).2.2 (by decide)).1⟩

/-- Claim C8: the synthetic grid generator always returns a 50 by 50 grid
with every value in [0, 1], and the secondary hotspot, merged by element-wise
maximum, never lowers a cell below the value set by the primary hotspot
alone. -/
theorem claim_C8_generator (cx cy radius cx2 cy2 radius2 : ℕ)
    (useSecond : Bool) :
    (generateMockHeatmap cx cy radius cx2 cy2 radius2 useSecond).length = 50 ∧
    (∀ row ∈ generateMockHeatmap cx cy radius cx2 cy2 radius2 useSecond,
      row.length = 50) ∧
    (∀ row ∈ generateMockHeatmap cx cy radius cx2 cy2 radius2 useSecond,
      ∀ cell ∈ row, 0 ≤ cell ∧ cell ≤ 1) ∧
    (∀ x y : ℕ, hotspotValue cx cy radius x y ≤
      mockHeatmapCell cx cy radius cx2 cy2 radius2 useSecond x y) := by
  refine ⟨?_, ?_, ?_, ?_⟩
  · simp [generateMockHeatmap]
  · intro row hrow
    unfold generateMockHeatmap at hrow
    rw [List.mem_map] at hrow
    obtain ⟨y, -, rfl⟩ := hrow
    simp
  · intro row hrow
    unfold generateMockHeatmap at hrow
    rw [List.mem_map] at hrow
    obtain ⟨y, -, rfl⟩ := hrow
    intro cell hcell
    rw [List.mem_map] at hcell
    obtain ⟨x, -, rfl⟩ := hcell
    exact ⟨mockHeatmapCell_nonneg cx cy radius cx2 cy2 radius2 useSecond x y,
      mockHeatmapCell_le_one cx cy radius cx2 cy2 radius2 useSecond x y⟩
  · intro x y
    exact mockHeatmapCell_ge_hotspot cx cy radius cx2 cy2 radius2 useSecond x y

set_option maxRecDepth 8000 in
/-- Claim C4 counterexample: a 5 by 5 grid whose only 1.0 sits at the
top-left corner, outside the central 60 percent of each dimension.  The
code's scan returns that corner cell with value 1, while the specified
region-restricted search returns the zero sentinel: the scan is not
restricted to the sub-rectangle the claim describes. -/
theorem claim_C4_counterexample :
    peakScan gridCorner = ⟨0, 0, 1⟩ ∧
    findPeakSpecCentral gridCorner = ⟨0, 0, 0⟩ ∧
    peakScan gridCorner ≠ findPeakSpecCentral gridCorner := by
  refine ⟨by decide, by decide, by decide⟩

set_option maxRecDepth 8000 in
/-- Claim C4 amended: the part_002 peak scan has no region restriction: it
scans the entire grid, every in-bounds cell value is bounded by the returned
value, and when the returned value is positive it is attained at the returned
cell and every strictly earlier cell in row-major order is strictly smaller
(first-occurrence tie-break); on the 5 by 5 grid with a single 1.0 at column
3, row 2 it returns that cell with value 1.0. -/
theorem claim_C4_amended (grid : HeatGrid) :
    (∀ c : ℕ × ℕ, c.1 < (grid.headD []).length → c.2 < grid.length →
      ∀ v, vOf grid c = some v → v ≤ (peakScan grid).value) ∧
    (0 < (peakScan grid).value →
      vOf grid ((peakScan grid).x, (peakScan grid).y) =
        some (peakScan grid).value ∧
      ∀ c : ℕ × ℕ, c.1 < (grid.headD []).length → c.2 < grid.length →
        rmLt c ((peakScan grid).x, (peakScan grid).y) →
        ∀ v, vOf grid c = some v → v < (peakScan grid).value) ∧
    peakScan grid5 = ⟨3, 2, 1⟩ := by
  obtain ⟨g1, g2, g3⟩ := peakFoldSpec grid
    (gridCells grid.length (grid.headD []).length) ⟨0, 0, 0⟩
    (pairwise_gridCells _ _) (Or.inl rfl)
  rw [← peakScan_eq_foldl] at g1 g2 g3
  refine ⟨?_, ?_, by decide⟩
  · intro c h1 h2 v hv
    exact g2 c (mem_gridCells h1 h2) v hv
  · intro hpos
    rcases g3 with heq | ⟨h1, h2, h3⟩
    · rw [heq] at hpos
      exact absurd hpos (lt_irrefl 0)
    · exact ⟨h1, fun c hc1 hc2 hrm v hv =>
        h3 c (mem_gridCells hc1 hc2) hrm v hv⟩

/-- Witness for the amended C4 on the 5 by 5 single-peak grid. -/
theorem claim_C4_amended_witness :
    (1 : ℚ) ≤ (peakScan grid5).value ∧ peakScan grid5 = ⟨3, 2, 1⟩ :=
  ⟨(claim_C4_amended grid5).1 (3, 2) (by decide) (by decide) 1 (by decide),
   (claim_C4_amended grid5).2.2⟩

/-- Claim C10: on a grid with a non-empty first row (so that cell (0, 0)
exists and the source's centre division is by a non-zero length) and only
non-positive values, the strict comparison of the part_002 scan leaves the
sentinel (0, 0, 0); the highlight is nevertheless painted, centred at grid
cell (0, 0) mapped to the raster's top-left, where the pixel receives the
full-intensity channel shift. -/
theorem claim_C10_zero_peak (grid : HeatGrid)
    (hrow0 : 0 < (grid.headD []).length)
    (hnp : ∀ row ∈ grid, ∀ cell ∈ row, cell ≤ 0) :
    peakScan grid = ⟨0, 0, 0⟩ ∧
    (∀ width height : ℕ, peakCenterP2 grid width height = (0, 0)) ∧
    ∀ (base : RasterR) (width height : ℕ), 0 < width → 0 < height →
      drawHeatmapP2 base grid width height 0 0 =
        highlightPixelP2 (base 0 0) 1 := by
  have hpeak : peakScan grid = ⟨0, 0, 0⟩ := by
    unfold peakScan
    apply foldlFixedPoint
    intro y _
    apply foldlFixedPoint
    intro x _
    cases hv : vOf grid (x, y) with
    | none => simp [peakStep, hv]
    | some v =>
      have hvle : v ≤ 0 := by
        unfold vOf at hv
        rw [Option.bind_eq_some] at hv
        obtain ⟨row, hrow, hcell⟩ := hv
        exact hnp row (List.get?_mem hrow) v (List.get?_mem hcell)
      simp [peakStep, hv, not_lt.2 hvle]
  have hcenter : ∀ width height : ℕ,
      peakCenterP2 grid width height = (0, 0) := by
    intro width height
    unfold peakCenterP2
    rw [hpeak]
    simp
  refine ⟨hpeak, hcenter, ?_⟩
  intro base width height hw hh
  have hrad : (0 : ℝ) < ((min width height : ℕ) : ℝ) * (15 / 100) := by
    have h1 : 0 < min width height := lt_min hw hh
    have h2 : (0 : ℝ) < ((min width height : ℕ) : ℝ) := by exact_mod_cast h1
    have h3 : (0 : ℝ) < (15 : ℝ) / 100 := by norm_num
    exact mul_pos h2 h3
  unfold drawHeatmapP2
  rw [if_pos ⟨hw, hh⟩, hcenter width height]
  norm_num
  intro hcontra
  exact absurd (hcontra hw) (by omega)

/-- Witness for C10 on a 2 by 2 all-zero grid and a 2 by 2 raster. -/
theorem claim_C10_witness :
    peakScan gridNeg = ⟨0, 0, 0⟩ ∧
    drawHeatmapP2 base0R gridNeg 2 2 0 0 = highlightPixelP2 (base0R 0 0) 1 :=
  ⟨(claim_C10_zero_peak gridNeg (by decide) (by decide)).1,
   (claim_C10_zero_peak gridNeg (by decide) (by decide)).2.2 base0R 2 2
     (by decide) (by decide)⟩
